import Mathlib

/-!
Shallow embedding of the podlet translation core: the `[Unit]` section model
(`src/cli/unit.rs`) and the kube file-reference model (`src/cli/kube.rs`).
Rust `String`/`PathBuf` values are modelled as Lean `String` (all inputs are
valid UTF-8, so `PathBuf::from`/`Path::display`/`OsStr::to_str` are lossless),
`Vec` as `List`, `Option` as `Option`, and `Result<_, Infallible>` as
`Except Empty _`.
-/

namespace Podlet

/-- The `Unit` struct of `src/cli/unit.rs`: an optional description and four
insertion-ordered dependency lists (`wants`, `requires`, `before`, `after`). -/
structure Unit where
  description : Option String
  wants : List String
  requires : List String
  before : List String
  after : List String
  deriving DecidableEq, Repr

/-- The derived Rust `Unit::default()`: `None` description and four empty vectors. -/
def Unit.default : Unit :=
  { description := none, wants := [], requires := [], before := [], after := [] }

/-- Source `Unit::is_empty`: `*self == Self::default()`. -/
def Unit.is_empty (u : Unit) : Bool :=
  decide (u = Unit.default)

/-- Model of `docker_compose_types::DependsCondition` (external crate): an
opaque condition payload; the code under verification discards it. -/
structure DependsCondition where
  condition : String
  deriving DecidableEq, Repr

/-- Model of `docker_compose_types::DependsOnOptions` (external crate): either a
flat list of service names or an insertion-ordered map (`indexmap::IndexMap`)
from service name to condition.  The map is modelled as an association list in
insertion order, which is the order `IndexMap::into_keys` yields. -/
inductive DependsOnOptions where
  | Simple : List String → DependsOnOptions
  | Conditional : List (String × DependsCondition) → DependsOnOptions
  deriving DecidableEq, Repr

/-- Source `Unit::add_dependencies`: take the service names (for `Conditional`, the
keys in insertion order, conditions discarded), suffix each with `".service"`,
and append them to `requires`. -/
def Unit.add_dependencies (u : Unit) (depends_on : DependsOnOptions) : Unit :=
  let deps := match depends_on with
    | DependsOnOptions.Simple vec => vec
    | DependsOnOptions.Conditional map => map.map Prod.fst
  { u with requires := u.requires ++ deps.map (fun dependency => dependency ++ ".service") }

/-- Source `impl Display for Unit` (`src/cli/unit.rs` lines 69-95): header line, then
`Description=`, `Wants=`, `Requires=`, `Before=` each gated on its own
emptiness — except the final `After=` write, which the source gates on
`self.before.is_empty()` (line 89), not on `after`. -/
def Unit.fmt (u : Unit) : String :=
  "[Unit]\n"
    ++ (match u.description with
        | some description => "Description=" ++ description ++ "\n"
        | none => "")
    ++ (if u.wants.isEmpty then "" else "Wants=" ++ String.intercalate " " u.wants ++ "\n")
    ++ (if u.requires.isEmpty then "" else "Requires=" ++ String.intercalate " " u.requires ++ "\n")
    ++ (if u.before.isEmpty then "" else "Before=" ++ String.intercalate " " u.before ++ "\n")
    ++ (if u.before.isEmpty then "" else "After=" ++ String.intercalate " " u.after ++ "\n")

/-- Model of Rust `str::split(c)` (used by the source as `split('.')` and by the
url crate `path_segments` as `split('/')`): splitting an empty string yields
`[""]`, and each occurrence of `c` separates two (possibly empty) pieces. -/
def splitCharAux (c : Char) : List Char → List (List Char)
  | [] => [[]]
  | x :: xs =>
    match splitCharAux c xs with
    | [] => [[]]
    | h :: t => if x = c then [] :: (h :: t) else (x :: h) :: t

/-- String-level wrapper for `splitCharAux`. -/
def splitChar (c : Char) (s : String) : List String :=
  (splitCharAux c s.toList).map String.mk

/-- Model of the external url crate type `Url`, restricted to the observations
the source makes of it: its canonical serialization (what `Display` prints),
its path (for a URL that can be a base, always starting with `"/"`), and the
`cannot_be_a_base` flag deciding whether `path_segments` is available. -/
structure Url where
  serialization : String
  path : String
  cannot_be_a_base : Bool
  deriving DecidableEq, Repr

/-- Model of the url crate function `Url::path_segments`: `None` for a
cannot-be-a-base URL, otherwise the path after its leading `'/'` split on
`'/'`. -/
def Url.path_segments (u : Url) : Option (List String) :=
  if u.cannot_be_a_base then none
  else some (splitChar '/' (u.path.drop 1))

/-- Index of the last occurrence of `c` in the list, if any. -/
def lastIdxOf (c : Char) : List Char → Option Nat
  | [] => none
  | x :: xs =>
    match lastIdxOf c xs with
    | some i => some (i + 1)
    | none => if x = c then some 0 else none

/-- Model of Rust std `Path::file_name` for UTF-8 paths: the last component
of the path after dropping empty and `"."` components; `None` when there is no
such component or it is `".."`. -/
def Path.file_name (p : String) : Option String :=
  let comps := (splitChar '/' p).filter (fun comp => comp ≠ "" && comp ≠ ".")
  match comps.getLast? with
  | none => none
  | some comp => if comp = ".." then none else some comp

/-- Model of Rust std `rsplit_file_at_dot` on a file name: split at the last
`'.'`, except that `".."` and a name whose only structure is a leading dot
count as all stem.  Returns `(before, after)`. -/
def rsplit_file_at_dot (file : String) : Option String × Option String :=
  if file = ".." then (some file, none)
  else
    match lastIdxOf '.' file.toList with
    | none => (none, some file)
    | some i =>
      if i = 0 then (some file, none)
      else (some (file.take i), some (file.drop (i + 1)))

/-- Model of Rust std `Path::file_stem`: the file name with its final
extension removed (`before.or(after)` of `rsplit_file_at_dot`). -/
def Path.file_stem (p : String) : Option String :=
  (Path.file_name p).bind fun name =>
    match rsplit_file_at_dot name with
    | (some before, _) => some before
    | (none, after) => after

/-- The `File` enum of `src/cli/kube.rs`: a parsed URL or a local path.
`PathBuf` is modelled as the raw string (`PathBuf::from` stores it verbatim). -/
inductive File where
  | Url : Podlet.Url → File
  | Path : String → File
  deriving DecidableEq, Repr

/-- Source `impl FromStr for File` (`src/cli/kube.rs` lines 112-119) with
`Err = Infallible` modelled as `Except Empty`.  The url crate parser is an
external collaborator, so it is a parameter: on parse success the URL variant,
on any failure the raw string as a path. -/
def File.from_str (urlParse : String → Option Podlet.Url) (s : String) : Except Empty File :=
  Except.ok (match urlParse s with
    | some url => File.Url url
    | none => File.Path s)

/-- Source `impl Display for File` (`src/cli/kube.rs` lines 121-128): a URL prints its
serialization, a path prints its display form (the verbatim string for UTF-8
input). -/
def File.fmt : File → String
  | File.Url url => url.serialization
  | File.Path path => path

/-- Source `File::name` (`src/cli/kube.rs` lines 130-142): for a URL, the last path
segment if non-empty, split at the first `'.'`, first piece; for a path, the
file stem (`OsStr::to_str` is the identity on the UTF-8 model). -/
def File.name : File → Option String
  | File.Url url =>
      ((url.path_segments.bind List.getLast?).filter (fun file => !file.isEmpty)).bind
        (fun file => (splitChar '.' file).head?)
  | File.Path path => Path.file_stem path

/-- The `Play` args struct of `src/cli/kube.rs` (fields in source order). -/
structure Play where
  configmap : List String
  log_driver : Option String
  network : List String
  publish : List String
  userns : Option String
  file : File
  deriving DecidableEq, Repr

/-- The `Kube` subcommand enum of `src/cli/kube.rs`. -/
inductive Kube where
  | Play : Podlet.Play → Kube
  deriving DecidableEq, Repr

/-- Source `Kube::name` (`src/cli/kube.rs` lines 41-47): the derived file name, or
`"pod"` when absent. -/
def Kube.name : Kube → String
  | Kube.Play play => (play.file.name).getD "pod"

/-- Accessor for the one `Play` payload of a `Kube` (the source destructures
with a `let` binding on the single variant). -/
def Kube.play : Kube → Podlet.Play
  | Kube.Play play => play

/-- The value the url crate parser yields for `"https://example.com/test.yaml"`:
path `"/test.yaml"`, can be a base. -/
def urlTestYaml : Url :=
  { serialization := "https://example.com/test.yaml", path := "/test.yaml",
    cannot_be_a_base := false }

/-- The value the url crate parser yields for `"https://example.com/"`:
path `"/"`, can be a base. -/
def urlRootOnly : Url :=
  { serialization := "https://example.com/", path := "/", cannot_be_a_base := false }

/-- The value the url crate parser yields for `"https://example.com/a.b.c"`:
path `"/a.b.c"`, can be a base. -/
def urlABC : Url :=
  { serialization := "https://example.com/a.b.c", path := "/a.b.c",
    cannot_be_a_base := false }

/-- The value the url crate parser yields for `"https://example.com/.yaml"`:
path `"/.yaml"`, can be a base (a leading-dot segment is not a WHATWG
single-dot segment, so it survives parsing verbatim). -/
def urlDotYaml : Url :=
  { serialization := "https://example.com/.yaml", path := "/.yaml",
    cannot_be_a_base := false }

/-- Claim C1: the clean render contract — one line per populated field,
`After=` included — fails on the code: here the `after` list is populated and
`before` is empty, yet the output is only the header, because the source gates
the `After=` write on the emptiness of `before` (`src/cli/unit.rs` line 89). -/
theorem unit_fmt_drops_populated_after :
    Unit.fmt { description := none, wants := [], requires := [], before := [],
               after := ["a.service"] } = "[Unit]\n" :=
  rfl

/-- Claim C2: the `After=` line is gated on `before`, not `after`.  When
`before` is empty the output is independent of `after` (so the intended
`After=` line is suppressed); when `before` is non-empty the output ends with
the `After=` line (even if `after` is empty). -/
theorem unit_fmt_after_gated_on_before : ∀ u : Unit,
    (u.before = [] →
      ∀ a, Unit.fmt { u with after := a } = Unit.fmt { u with after := [] }) ∧
    (u.before ≠ [] →
      ∃ s, Unit.fmt u = s ++ ("After=" ++ String.intercalate " " u.after ++ "\n")) := by
  intro u
  obtain ⟨d, w, r, bef, a⟩ := u
  constructor
  · intro h a'
    subst h
    rfl
  · intro h
    cases bef with
    | nil => exact absurd rfl h
    | cons b bs =>
      cases d with
      | none =>
        exact ⟨"[Unit]\n" ++ ""
          ++ (if w.isEmpty then "" else "Wants=" ++ String.intercalate " " w ++ "\n")
          ++ (if r.isEmpty then "" else "Requires=" ++ String.intercalate " " r ++ "\n")
          ++ ("Before=" ++ String.intercalate " " (b :: bs) ++ "\n"), rfl⟩
      | some dd =>
        exact ⟨"[Unit]\n" ++ ("Description=" ++ dd ++ "\n")
          ++ (if w.isEmpty then "" else "Wants=" ++ String.intercalate " " w ++ "\n")
          ++ (if r.isEmpty then "" else "Requires=" ++ String.intercalate " " r ++ "\n")
          ++ ("Before=" ++ String.intercalate " " (b :: bs) ++ "\n"), rfl⟩

/-- Claim C2 witness: at concrete inputs — with `before = []`, populating
`after` with `["a"]` leaves the output unchanged; with `before = ["b"]` and
`after = []`, the output still ends in an `After=` line. -/
theorem unit_fmt_after_gated_on_before_witness :
    (Unit.fmt { description := none, wants := [], requires := [], before := [],
                after := ["a"] }
      = Unit.fmt { description := none, wants := [], requires := [], before := [],
                   after := [] }) ∧
    (∃ s, Unit.fmt { description := none, wants := [], requires := [], before := ["b"],
                     after := [] }
      = s ++ ("After=" ++ String.intercalate " " ([] : List String) ++ "\n")) :=
  ⟨(unit_fmt_after_gated_on_before
      { description := none, wants := [], requires := [], before := [], after := [] }).1
      rfl ["a"],
   (unit_fmt_after_gated_on_before
      { description := none, wants := [], requires := [], before := ["b"], after := [] }).2
      (List.cons_ne_nil "b" [])⟩

/-- Claim C3 counterexample: `Kube::name` returns the empty string for the
play whose file is the URL `https://example.com/.yaml` — the last path segment
`".yaml"` is non-empty, so the fallback is not taken, but splitting it at the
first dot yields the empty first piece. -/
theorem kube_name_empty_string_cex :
    Kube.name (Kube.Play { configmap := [], log_driver := none, network := [],
                           publish := [], userns := none,
                           file := File.Url urlDotYaml }) = "" ∧
    File.name (File.Url urlDotYaml) = some "" :=
  ⟨rfl, rfl⟩

/-- Claim C3 (amended): `Kube::name` returns the derived file name when
present and the fallback literal `"pod"` when absent; it is not guaranteed
non-empty, since a present-but-empty derived name is returned verbatim. -/
theorem kube_name_amended : ∀ k : Kube,
    (k.play.file.name = none → k.name = "pod") ∧
    (∀ n, k.play.file.name = some n → k.name = n) := by
  intro k
  cases k with
  | Play p =>
    constructor
    · intro h
      simp [Kube.name, Kube.play] at *
      simp [h]
    · intro n h
      simp [Kube.name, Kube.play] at *
      simp [h]

/-- Claim C3 witness: a URL with no non-empty last segment gives the fallback
`"pod"`; the local path `"pod.yaml"` gives its stem `"pod"`. -/
theorem kube_name_amended_witness :
    Kube.name (Kube.Play { configmap := [], log_driver := none, network := [],
                           publish := [], userns := none,
                           file := File.Url urlRootOnly }) = "pod" ∧
    Kube.name (Kube.Play { configmap := [], log_driver := none, network := [],
                           publish := [], userns := none,
                           file := File.Path "pod.yaml" }) = "pod" :=
  ⟨(kube_name_amended _).1 rfl, (kube_name_amended _).2 "pod" rfl⟩

/-- Claim C4: `File::from_str` is total — it always returns `Ok`; when the URL
parser succeeds the result is the `Url` variant with the parsed URL, and on any
parser failure it is the `Path` variant carrying the raw input string
unmodified. -/
theorem file_from_str_total : ∀ (urlParse : String → Option Url) (s : String),
    (∃ f, File.from_str urlParse s = Except.ok f) ∧
    (∀ u, urlParse s = some u → File.from_str urlParse s = Except.ok (File.Url u)) ∧
    (urlParse s = none → File.from_str urlParse s = Except.ok (File.Path s)) := by
  intro up s
  refine ⟨⟨_, rfl⟩, fun u h => ?_, fun h => ?_⟩ <;> simp [File.from_str, h]

/-- Claim C4 witness: with a parser that accepts, parsing yields the `Url`
variant; with one that rejects, the `Path` variant with the raw string. -/
theorem file_from_str_total_witness :
    File.from_str (fun _ => some urlTestYaml) "x" = Except.ok (File.Url urlTestYaml) ∧
    File.from_str (fun _ => none) "x" = Except.ok (File.Path "x") :=
  ⟨(file_from_str_total (fun _ => some urlTestYaml) "x").2.1 urlTestYaml rfl,
   (file_from_str_total (fun _ => none) "x").2.2 rfl⟩

/-- Claim C5: the derived file name on the examples of the spec — a remote
`test.yaml` segment gives `"test"`, a local `test.yaml` gives `"test"`, a
remote with empty last segment has no name, an extensionless local `test`
gives `"test"`, and a remote last segment `a.b.c` gives `"a"` (split at the
first dot, first piece). -/
theorem file_name_examples :
    File.name (File.Url urlTestYaml) = some "test" ∧
    File.name (File.Path "test.yaml") = some "test" ∧
    File.name (File.Url urlRootOnly) = none ∧
    File.name (File.Path "test") = some "test" ∧
    File.name (File.Url urlABC) = some "a" :=
  ⟨rfl, rfl, rfl, rfl, rfl⟩

/-- Claim C6: `add_dependencies` appends each target suffixed with
`".service"` to `requires`: a `Simple` list in input order, a `Conditional`
map by its key list in insertion order (the order `IndexMap::into_keys`
yields), conditions discarded. -/
theorem add_dependencies_appends :
    ∀ (u : Unit) (l : List String) (m : List (String × DependsCondition)),
    (u.add_dependencies (DependsOnOptions.Simple l)).requires
      = u.requires ++ l.map (fun d => d ++ ".service") ∧
    (u.add_dependencies (DependsOnOptions.Conditional m)).requires
      = u.requires ++ (m.map Prod.fst).map (fun d => d ++ ".service") :=
  fun _ _ _ => ⟨rfl, rfl⟩

/-- Claim C7: `add_dependencies` only appends to `requires`: the description
and the other three lists are unchanged, and the old `requires` is a prefix of
the new one. -/
theorem add_dependencies_frame : ∀ (u : Unit) (g : DependsOnOptions),
    (u.add_dependencies g).description = u.description ∧
    (u.add_dependencies g).wants = u.wants ∧
    (u.add_dependencies g).before = u.before ∧
    (u.add_dependencies g).after = u.after ∧
    ∃ t, (u.add_dependencies g).requires = u.requires ++ t :=
  fun _ _ => ⟨rfl, rfl, rfl, rfl, ⟨_, rfl⟩⟩

/-- Claim C8: a default-constructed `Unit` is empty; `is_empty` holds exactly
when the description is absent and all four lists are empty; and putting a
single identifier in any one of the four lists of a fresh section falsifies
`is_empty`. -/
theorem is_empty_spec :
    Unit.is_empty Unit.default = true ∧
    (∀ u : Unit, u.is_empty = true ↔
      (u.description = none ∧ u.wants = [] ∧ u.requires = [] ∧ u.before = [] ∧
       u.after = [])) ∧
    (∀ x : String, Unit.is_empty { Unit.default with wants := [x] } = false) ∧
    (∀ x : String, Unit.is_empty { Unit.default with requires := [x] } = false) ∧
    (∀ x : String, Unit.is_empty { Unit.default with before := [x] } = false) ∧
    (∀ x : String, Unit.is_empty { Unit.default with after := [x] } = false) := by
  refine ⟨rfl, fun u => ?_, fun x => ?_, fun x => ?_, fun x => ?_, fun x => ?_⟩
  · obtain ⟨d, w, r, bef, a⟩ := u
    simp [Unit.is_empty, Unit.default]
  all_goals simp [Unit.is_empty, Unit.default]

/-- Claim C8 witness: the all-empty section satisfies `is_empty`, through the
characterisation. -/
theorem is_empty_spec_witness :
    Unit.is_empty { description := none, wants := [], requires := [], before := [],
                    after := [] } = true :=
  (is_empty_spec.2.1
    { description := none, wants := [], requires := [], before := [], after := [] }).mpr
    ⟨rfl, rfl, rfl, rfl, rfl⟩

/-- Claim C9: on the `Local` branch, parse-then-display is the identity: when
the URL parser rejects `s`, `from_str` yields a file whose display form is `s`
itself. -/
theorem local_display_round_trip : ∀ (urlParse : String → Option Url) (s : String),
    urlParse s = none →
    ∃ f, File.from_str urlParse s = Except.ok f ∧ File.fmt f = s := by
  intro up s h
  exact ⟨File.Path s, by simp [File.from_str, h], rfl⟩

/-- Claim C9 witness: the round trip at the concrete non-URL string
`"my pod.yaml"`. -/
theorem local_display_round_trip_witness :
    ∃ f, File.from_str (fun _ => none) "my pod.yaml" = Except.ok f ∧
      File.fmt f = "my pod.yaml" :=
  local_display_round_trip (fun _ => none) "my pod.yaml" rfl

/-- Claim C10: the section header is unconditional: an empty `Unit` renders as
exactly the single header line, and the rendering of every `Unit` starts with the
header line. -/
theorem fmt_header_unconditional :
    (∀ u : Unit, u.is_empty = true → u.fmt = "[Unit]\n") ∧
    (∀ u : Unit, ∃ rest, u.fmt = "[Unit]\n" ++ rest) := by
  constructor
  · intro u h
    have hu : u = Unit.default := of_decide_eq_true h
    subst hu
    rfl
  · intro u
    obtain ⟨d, w, r, bef, a⟩ := u
    refine ⟨(match d with
        | some description => "Description=" ++ description ++ "\n"
        | none => "")
      ++ ((if w.isEmpty then "" else "Wants=" ++ String.intercalate " " w ++ "\n")
      ++ ((if r.isEmpty then "" else "Requires=" ++ String.intercalate " " r ++ "\n")
      ++ ((if bef.isEmpty then "" else "Before=" ++ String.intercalate " " bef ++ "\n")
      ++ (if bef.isEmpty then "" else "After=" ++ String.intercalate " " a ++ "\n")))), ?_⟩
    simp [Unit.fmt, String.append_assoc]

/-- Claim C10 witness: the empty section renders as exactly the header line. -/
theorem fmt_header_unconditional_witness :
    Unit.fmt { description := none, wants := [], requires := [], before := [],
               after := [] } = "[Unit]\n" :=
  fmt_header_unconditional.1
    { description := none, wants := [], requires := [], before := [], after := [] } rfl

end Podlet
